import Mathlib

/-!
Shallow embedding of the subscription lifecycle logic of `src/app.py`
(streamlit-app). The MongoDB `subscriptions` collection is modelled as a
list of records in insertion order together with a monotone id counter
(Mongo ObjectIds are monotonically assigned); `insert_one` appends a record
carrying the next id, `update_one` rewrites the first record matching the
id filter, `delete_one` removes the first matching catalog entry and
`update_many` rewrites every matching record. Instants (`datetime.utcnow()`)
are modelled as natural numbers counted in days, so `timedelta(days=30)`
is `+ 30`.
-/

namespace StreamlitApp

/-- The values the `status` field of a subscription document takes in
`src/app.py`: "Active", "Queued", "Expired" and "Cancelled". -/
inductive SubStatus
  | Active
  | Queued
  | Expired
  | Cancelled
deriving DecidableEq, Repr

/-- A document of the `subscriptions` collection, with the fields written by
`src/app.py` (`username`, `email`, denormalized `plan`, `price`, `speed`,
`data`, `status`, nullable `start_date` and `end_date`), plus its Mongo id. -/
structure Subscription where
  id : Nat
  username : String
  email : String
  plan : String
  price : String
  speed : String
  data : String
  status : SubStatus
  start_date : Option Nat
  end_date : Option Nat
deriving DecidableEq, Repr

/-- A catalog entry of the `plans` collection (the fields the lifecycle
code reads: `name`, `price`, `speed`, `data`). -/
structure Plan where
  name : String
  price : String
  speed : String
  data : String
deriving DecidableEq, Repr

/-- The `subscriptions` collection: documents in insertion order plus the
next id to assign. -/
structure Store where
  subs : List Subscription
  nextId : Nat
deriving DecidableEq, Repr

/-- `timedelta(days=30)` with time measured in days. -/
def thirtyDays : Nat := 30

/-- `subscriptions_collection.insert_one(...)`: appends the document built
from the next id and advances the id counter. -/
def insertOne (st : Store) (mk : Nat → Subscription) : Store :=
  { subs := st.subs ++ [mk st.nextId], nextId := st.nextId + 1 }

/-- The filter `{"email": e, "status": "Active"}` of the duplicate check in
the Subscribe handler (app.py line 1013). -/
def activePred (e : String) (s : Subscription) : Bool :=
  decide (s.email = e ∧ s.status = SubStatus.Active)

/-- `subscriptions_collection.find_one({"email": e, "status": "Active"})`
(app.py line 1013): first matching document in insertion order. -/
def findActiveByEmail (st : Store) (e : String) : Option Subscription :=
  st.subs.find? (activePred e)

/-- The document inserted by Subscribe when no Active record exists
(app.py lines 1031-1041): status Active, `start_date` = now, `end_date` =
now + 30 days, plan fields denormalized from the catalog entry. -/
def newActiveSub (i : Nat) (username email : String) (p : Plan) (now : Nat) :
    Subscription :=
  { id := i, username := username, email := email, plan := p.name,
    price := p.price, speed := p.speed, data := p.data,
    status := SubStatus.Active, start_date := some now,
    end_date := some (now + thirtyDays) }

/-- The document inserted by Subscribe when an Active record exists
(app.py lines 1016-1026): status Queued, both dates null, plan fields
denormalized from the catalog entry. -/
def newQueuedSub (i : Nat) (username email : String) (p : Plan) :
    Subscription :=
  { id := i, username := username, email := email, plan := p.name,
    price := p.price, speed := p.speed, data := p.data,
    status := SubStatus.Queued, start_date := none, end_date := none }

/-- The Subscribe handler (app.py lines 1010-1045): look for an Active
record under the same email; insert a Queued record if one exists,
otherwise insert an Active record. -/
def subscribe (st : Store) (username email : String) (p : Plan) (now : Nat) :
    Store :=
  match findActiveByEmail st email with
  | some _ => insertOne st (fun i => newQueuedSub i username email p)
  | none => insertOne st (fun i => newActiveSub i username email p now)

/-- Mongo `update_one({"_id": i}, ...)`: rewrite the first document whose
id matches; no match leaves the list unchanged. -/
def updateFirst (subs : List Subscription) (i : Nat)
    (f : Subscription → Subscription) : List Subscription :=
  match subs with
  | [] => []
  | s :: rest => if s.id = i then f s :: rest else s :: updateFirst rest i f

/-- The in-place Renew handler (app.py lines 837-844):
`update_one({"_id": id}, {"$set": {"end_date": utcnow() + 30 days}})`.
The code performs no status check on the target. -/
def renew (st : Store) (i : Nat) (now : Nat) : Store :=
  { st with
    subs := updateFirst st.subs i
      (fun s => { s with end_date := some (now + thirtyDays) }) }

/-- The Cancel handlers (app.py lines 911-920 and 943-952):
`update_one({"_id": id}, {"$set": {"status": "Expired", "end_date": utcnow()}})`.
The code performs no status check on the target. -/
def cancel (st : Store) (i : Nat) (now : Nat) : Store :=
  { st with
    subs := updateFirst st.subs i
      (fun s => { s with status := SubStatus.Expired, end_date := some now }) }

/-- Lookup of a document by id, modelling that the Renewal button handler
(app.py lines 896-909) holds the subscription document it acts on. -/
def findById (st : Store) (i : Nat) : Option Subscription :=
  st.subs.find? (fun s => decide (s.id = i))

/-- The document inserted by the Renewal button (app.py lines 897-907):
status Queued, both dates null, plan fields copied from the renewed
subscription record itself. -/
def requeueSub (i : Nat) (s : Subscription) : Subscription :=
  { id := i, username := s.username, email := s.email, plan := s.plan,
    price := s.price, speed := s.speed, data := s.data,
    status := SubStatus.Queued, start_date := none, end_date := none }

/-- The Renewal button handler of the subscriptions view (app.py lines
896-909): inserts a new Queued record duplicating the denormalized fields
of the record it was pressed on. A missing id leaves the store unchanged
(the UI always holds an existing record). -/
def requeueRenew (st : Store) (i : Nat) : Store :=
  match findById st i with
  | none => st
  | some s => insertOne st (fun j => requeueSub j s)

/-- `plans_collection.delete_one({"name": n})` (app.py line 1375): removes
the first catalog entry with that name. -/
def deletePlanFromCatalog (ps : List Plan) (n : String) : List Plan :=
  match ps with
  | [] => []
  | p :: rest =>
    if p.name = n then rest else p :: deletePlanFromCatalog rest n

/-- `subscriptions_collection.update_many({"plan": n}, {"$set": {"status": "Cancelled"}})`
(app.py lines 1376-1379): rewrites every subscription referencing the plan. -/
def cancelSubsOfPlan (subs : List Subscription) (n : String) :
    List Subscription :=
  subs.map (fun s =>
    if s.plan = n then { s with status := SubStatus.Cancelled } else s)

/-- The Delete Plan handler (app.py lines 1374-1381): remove the plan from
the catalog and force status Cancelled on every referencing subscription. -/
def deletePlan (ps : List Plan) (st : Store) (n : String) :
    List Plan × Store :=
  (deletePlanFromCatalog ps n, { st with subs := cancelSubsOfPlan st.subs n })

/-- The status filter used by the dashboard partitioning
(`str(s.get('status','')).lower() == ...`, app.py lines 732-735). -/
def hasStatus (x : SubStatus) (s : Subscription) : Bool :=
  decide (s.status = x)

/-- `subscriptions_collection.find({"email": e})` (app.py lines 729-730):
the records the user dashboard works on, selected by email. -/
def userSubs (st : Store) (e : String) : List Subscription :=
  st.subs.filter (fun s => decide (s.email = e))

/-- `sorted(queued_subs, key=lambda x: x.get('_id'))` (app.py line 928):
stable sort of the queued partition by ascending record id. -/
def queuedSorted (subs : List Subscription) : List Subscription :=
  (subs.filter (hasStatus SubStatus.Queued)).mergeSort
    (fun a b => decide (a.id ≤ b.id))

/-- The ListByUser partitioning of the subscriptions view (app.py lines
727-735 and 869-929): the user records selected by email, split into
active, queued (sorted by ascending id) and expired. -/
def listByUser (st : Store) (e : String) :
    List Subscription × List Subscription × List Subscription :=
  (userSubs st e |>.filter (hasStatus SubStatus.Active),
   queuedSorted (userSubs st e),
   userSubs st e |>.filter (hasStatus SubStatus.Expired))

/-- The user-triggered lifecycle operations of the dashboard. -/
inductive Op
  | subscribeOp (username email : String) (p : Plan) (now : Nat)
  | renewOp (i now : Nat)
  | requeueRenewOp (i : Nat)
  | cancelOp (i now : Nat)

/-- Dispatch of one lifecycle operation. -/
def applyOp (st : Store) : Op → Store
  | Op.subscribeOp u e p now => subscribe st u e p now
  | Op.renewOp i now => renew st i now
  | Op.requeueRenewOp i => requeueRenew st i
  | Op.cancelOp i now => cancel st i now

/-- A sequence of lifecycle operations applied in order. -/
def applyOps (st : Store) (ops : List Op) : Store :=
  ops.foldl applyOp st

/-- The number of Active records stored under an email address. -/
def activeCount (st : Store) (e : String) : Nat :=
  st.subs.countP (activePred e)

/-! ### Helper lemmas about the Mongo-style primitives -/

theorem updateFirst_append_first (l1 l2 : List Subscription) (s : Subscription)
    (i : Nat) (f : Subscription → Subscription) (hid : s.id = i)
    (hfirst : ∀ t ∈ l1, t.id ≠ i) :
    updateFirst (l1 ++ s :: l2) i f = l1 ++ f s :: l2 := by
  induction l1 with
  | nil => simp [updateFirst, hid]
  | cons t rest ih =>
    have ht : t.id ≠ i := hfirst t (by simp)
    simp only [List.cons_append, updateFirst, if_neg ht]
    exact congrArg (List.cons t) (ih (fun u hu => hfirst u (by simp [hu])))

theorem countP_updateFirst_le (l : List Subscription) (i : Nat)
    (f : Subscription → Subscription) (p : Subscription → Bool)
    (hf : ∀ s, p (f s) = true → p s = true) :
    (updateFirst l i f).countP p ≤ l.countP p := by
  induction l with
  | nil => simp [updateFirst]
  | cons s rest ih =>
    by_cases h : s.id = i
    · simp only [updateFirst, if_pos h, List.countP_cons]
      refine Nat.add_le_add (Nat.le_refl _) ?_
      by_cases hp : p (f s) = true
      · simp [hp, hf s hp]
      · simp only [Bool.not_eq_true] at hp
        simp [hp]
    · simp only [updateFirst, if_neg h, List.countP_cons]
      exact Nat.add_le_add ih (Nat.le_refl _)

theorem countP_updateFirst_eq (l : List Subscription) (i : Nat)
    (f : Subscription → Subscription) (p : Subscription → Bool)
    (hf : ∀ s, p (f s) = p s) :
    (updateFirst l i f).countP p = l.countP p := by
  induction l with
  | nil => simp [updateFirst]
  | cons s rest ih =>
    by_cases h : s.id = i
    · simp only [updateFirst, if_pos h, List.countP_cons, hf]
    · simp only [updateFirst, if_neg h, List.countP_cons, ih]

theorem deletePlanFromCatalog_not_mem (ps : List Plan) (n : String)
    (hnodup : (ps.map Plan.name).Nodup) :
    ∀ p ∈ deletePlanFromCatalog ps n, p.name ≠ n := by
  induction ps with
  | nil => simp [deletePlanFromCatalog]
  | cons q rest ih =>
    simp only [List.map_cons, List.nodup_cons] at hnodup
    by_cases h : q.name = n
    · simp only [deletePlanFromCatalog, if_pos h]
      intro p hp hpn
      exact hnodup.1 (h ▸ hpn ▸ List.mem_map_of_mem Plan.name hp)
    · simp only [deletePlanFromCatalog, if_neg h]
      intro p hp
      rcases List.mem_cons.mp hp with rfl | hp
      · exact h
      · exact ih hnodup.2 p hp

theorem mem_deletePlanFromCatalog (ps : List Plan) (n : String) (p : Plan)
    (hp : p ∈ ps) (hne : p.name ≠ n) : p ∈ deletePlanFromCatalog ps n := by
  induction ps with
  | nil => simp at hp
  | cons q rest ih =>
    by_cases h : q.name = n
    · simp only [deletePlanFromCatalog, if_pos h]
      rcases List.mem_cons.mp hp with rfl | hp
      · exact absurd h hne
      · exact hp
    · simp only [deletePlanFromCatalog, if_neg h]
      rcases List.mem_cons.mp hp with rfl | hp
      · exact List.mem_cons_self _ _
      · exact List.mem_cons_of_mem _ (ih hp)

/-! ### Preservation of the at-most-one-Active invariant by each operation -/

theorem activeCount_subscribe_le (st : Store) (u e2 e : String) (p : Plan)
    (now : Nat) (h : activeCount st e ≤ 1) :
    activeCount (subscribe st u e2 p now) e ≤ 1 := by
  unfold subscribe
  cases hfind : findActiveByEmail st e2 with
  | some a =>
    have hq : activePred e (newQueuedSub st.nextId u e2 p) = false := by
      simp [activePred, newQueuedSub]
    simpa [insertOne, activeCount, List.countP_append, hq] using h
  | none =>
    by_cases he : e2 = e
    · subst he
      have h0 : st.subs.countP (activePred e2) = 0 := by
        rw [List.countP_eq_zero]
        intro a ha
        simpa using List.find?_eq_none.mp hfind a ha
      simp only [insertOne, activeCount, List.countP_append, h0,
        Nat.zero_add]
      cases hna : activePred e2 (newActiveSub st.nextId u e2 p now) <;>
        simp [List.countP_cons, hna]
    · have hna : activePred e (newActiveSub st.nextId u e2 p now) = false := by
        simp [activePred, newActiveSub, he]
      simpa [insertOne, activeCount, List.countP_append, hna] using h

theorem activeCount_renew_eq (st : Store) (e : String) (i now : Nat) :
    activeCount (renew st i now) e = activeCount st e := by
  unfold renew activeCount
  exact countP_updateFirst_eq st.subs i _ (activePred e)
    (fun s => by simp [activePred])

theorem activeCount_cancel_le (st : Store) (e : String) (i now : Nat) :
    activeCount (cancel st i now) e ≤ activeCount st e := by
  unfold cancel activeCount
  exact countP_updateFirst_le st.subs i _ (activePred e)
    (fun s hp => absurd hp (by simp [activePred]))

theorem activeCount_requeueRenew_eq (st : Store) (e : String) (i : Nat) :
    activeCount (requeueRenew st i) e = activeCount st e := by
  unfold requeueRenew
  cases hfind : findById st i with
  | none => rfl
  | some s =>
    have hq : activePred e (requeueSub st.nextId s) = false := by
      simp [activePred, requeueSub]
    simp [insertOne, activeCount, List.countP_append, hq]

theorem activeCount_applyOp_le (st : Store) (e : String) (op : Op)
    (h : activeCount st e ≤ 1) : activeCount (applyOp st op) e ≤ 1 := by
  cases op with
  | subscribeOp u e2 p now => exact activeCount_subscribe_le st u e2 e p now h
  | renewOp i now => rw [applyOp, activeCount_renew_eq]; exact h
  | requeueRenewOp i => rw [applyOp, activeCount_requeueRenew_eq]; exact h
  | cancelOp i now =>
    exact Nat.le_trans (activeCount_cancel_le st e i now) h

/-! ### Claim theorems -/

/-- C1: for every user (identified, as everywhere in the dashboard code, by
the email address its subscription queries filter on) and every sequence of
Subscribe, Renew, RequeueRenew and Cancel operations starting from a state
with at most one Active subscription record for that user, the number of
that user's records with status Active stays at most one. -/
theorem lifecycle_preserves_at_most_one_active (st : Store) (e : String)
    (ops : List Op) (h : activeCount st e ≤ 1) :
    activeCount (applyOps st ops) e ≤ 1 := by
  induction ops generalizing st with
  | nil => exact h
  | cons op rest ih =>
    exact ih (applyOp st op) (activeCount_applyOp_le st e op h)

/-- C1 witness: a concrete run of all four operations from the empty store
keeps the Active count for the email at most one. -/
theorem lifecycle_preserves_at_most_one_active_witness :
    activeCount { subs := [], nextId := 0 } "a@x" ≤ 1 ∧
    activeCount
      (applyOps { subs := [], nextId := 0 }
        [Op.subscribeOp "alice" "a@x" ⟨"Pro", "$25", "100 Mbps", "1 TB"⟩ 0,
         Op.subscribeOp "alice" "a@x" ⟨"Ultra", "$40", "300 Mbps", "2 TB"⟩ 1,
         Op.requeueRenewOp 0,
         Op.cancelOp 0 5,
         Op.renewOp 0 6]) "a@x" ≤ 1 :=
  ⟨by decide,
   lifecycle_preserves_at_most_one_active { subs := [], nextId := 0 } "a@x"
     [Op.subscribeOp "alice" "a@x" ⟨"Pro", "$25", "100 Mbps", "1 TB"⟩ 0,
      Op.subscribeOp "alice" "a@x" ⟨"Ultra", "$40", "300 Mbps", "2 TB"⟩ 1,
      Op.requeueRenewOp 0,
      Op.cancelOp 0 5,
      Op.renewOp 0 6] (by decide)⟩

/-- C2: when no Active record exists under the email, Subscribe appends
exactly one new record, with status Active, start_date = now, end_date =
start_date + 30 days exactly, and the plan's price, speed and data
denormalized into it. -/
theorem subscribe_no_active_creates_active (st : Store) (u e : String)
    (p : Plan) (now : Nat) (h : findActiveByEmail st e = none) :
    subscribe st u e p now =
      { subs := st.subs ++ [newActiveSub st.nextId u e p now],
        nextId := st.nextId + 1 } ∧
    (newActiveSub st.nextId u e p now).status = SubStatus.Active ∧
    (newActiveSub st.nextId u e p now).start_date = some now ∧
    (newActiveSub st.nextId u e p now).end_date =
      Option.map (fun t => t + thirtyDays)
        (newActiveSub st.nextId u e p now).start_date ∧
    (newActiveSub st.nextId u e p now).plan = p.name ∧
    (newActiveSub st.nextId u e p now).price = p.price ∧
    (newActiveSub st.nextId u e p now).speed = p.speed ∧
    (newActiveSub st.nextId u e p now).data = p.data := by
  refine ⟨?_, rfl, rfl, rfl, rfl, rfl, rfl, rfl⟩
  unfold subscribe
  rw [h]
  rfl

/-- C2 witness: subscribing from the empty store creates the Active record
with a 30-day term. -/
theorem subscribe_no_active_creates_active_witness :
    findActiveByEmail { subs := [], nextId := 0 } "a@x" = none ∧
    subscribe { subs := [], nextId := 0 } "alice" "a@x"
        ⟨"Pro", "$25", "100 Mbps", "1 TB"⟩ 10 =
      { subs := [newActiveSub 0 "alice" "a@x"
          ⟨"Pro", "$25", "100 Mbps", "1 TB"⟩ 10],
        nextId := 1 } :=
  ⟨by decide,
   (subscribe_no_active_creates_active { subs := [], nextId := 0 }
     "alice" "a@x" ⟨"Pro", "$25", "100 Mbps", "1 TB"⟩ 10 (by decide)).1⟩

/-- C3: when an Active record exists under the email, Subscribe appends
exactly one new record, with status Queued and both dates null; since the
store is only appended to, every existing record — the Active one
included — is unchanged. -/
theorem subscribe_active_creates_queued (st : Store) (u e : String)
    (p : Plan) (now : Nat) (a : Subscription)
    (h : findActiveByEmail st e = some a) :
    subscribe st u e p now =
      { subs := st.subs ++ [newQueuedSub st.nextId u e p],
        nextId := st.nextId + 1 } ∧
    (newQueuedSub st.nextId u e p).status = SubStatus.Queued ∧
    (newQueuedSub st.nextId u e p).start_date = none ∧
    (newQueuedSub st.nextId u e p).end_date = none := by
  refine ⟨?_, rfl, rfl, rfl⟩
  unfold subscribe
  rw [h]
  rfl

/-- C3 witness: subscribing while an Active record exists appends a Queued
record with null dates and leaves the Active record in place. -/
theorem subscribe_active_creates_queued_witness :
    findActiveByEmail
      { subs := [⟨0, "alice", "a@x", "Pro", "$25", "100 Mbps", "1 TB",
          SubStatus.Active, some 0, some 30⟩], nextId := 1 } "a@x" =
      some ⟨0, "alice", "a@x", "Pro", "$25", "100 Mbps", "1 TB",
          SubStatus.Active, some 0, some 30⟩ ∧
    subscribe
      { subs := [⟨0, "alice", "a@x", "Pro", "$25", "100 Mbps", "1 TB",
          SubStatus.Active, some 0, some 30⟩], nextId := 1 }
      "alice" "a@x" ⟨"Ultra", "$40", "300 Mbps", "2 TB"⟩ 5 =
      { subs := [⟨0, "alice", "a@x", "Pro", "$25", "100 Mbps", "1 TB",
          SubStatus.Active, some 0, some 30⟩,
          newQueuedSub 1 "alice" "a@x" ⟨"Ultra", "$40", "300 Mbps", "2 TB"⟩],
        nextId := 2 } :=
  ⟨by decide,
   (subscribe_active_creates_queued
     { subs := [⟨0, "alice", "a@x", "Pro", "$25", "100 Mbps", "1 TB",
         SubStatus.Active, some 0, some 30⟩], nextId := 1 }
     "alice" "a@x" ⟨"Ultra", "$40", "300 Mbps", "2 TB"⟩ 5
     ⟨0, "alice", "a@x", "Pro", "$25", "100 Mbps", "1 TB",
         SubStatus.Active, some 0, some 30⟩ (by decide)).1⟩

/-- C4 counterexample: the Renew update carries no status check, so on a
store holding a single Queued record, Renew is not rejected and does not
leave the record unchanged: it sets the end_date of the still-Queued
record. -/
theorem renew_on_queued_changes_record :
    (renew { subs := [⟨1, "alice", "a@x", "Pro", "$25", "100 Mbps", "1 TB",
        SubStatus.Queued, none, none⟩], nextId := 2 } 1 100).subs ≠
      [⟨1, "alice", "a@x", "Pro", "$25", "100 Mbps", "1 TB",
        SubStatus.Queued, none, none⟩] ∧
    (renew { subs := [⟨1, "alice", "a@x", "Pro", "$25", "100 Mbps", "1 TB",
        SubStatus.Queued, none, none⟩], nextId := 2 } 1 100).subs =
      [⟨1, "alice", "a@x", "Pro", "$25", "100 Mbps", "1 TB",
        SubStatus.Queued, none, some 130⟩] :=
  ⟨by decide, by decide⟩

/-- C4 (amended): Renew(id) rewrites the first record whose id matches,
setting its end_date to now + 30 days and leaving its start_date and
status unchanged, whatever its status is; the code performs no status
check, so a Queued or Expired target is not rejected (no
InvalidStateTransition error exists) but updated the same way — only the
UI confines the button to the Active view. -/
theorem renew_updates_end_date_unconditionally (st : Store)
    (l1 l2 : List Subscription) (s : Subscription) (i now : Nat)
    (hsubs : st.subs = l1 ++ s :: l2) (hid : s.id = i)
    (hfirst : ∀ t ∈ l1, t.id ≠ i) :
    (renew st i now).subs =
      l1 ++ { s with end_date := some (now + thirtyDays) } :: l2 ∧
    ({ s with end_date := some (now + thirtyDays) }).start_date =
      s.start_date ∧
    ({ s with end_date := some (now + thirtyDays) }).status = s.status := by
  refine ⟨?_, rfl, rfl⟩
  show updateFirst st.subs i _ = _
  rw [hsubs]
  exact updateFirst_append_first l1 l2 s i _ hid hfirst

/-- C4 witness: renewing the Active record of a two-record store extends
its end_date and keeps its start_date and status. -/
theorem renew_updates_end_date_unconditionally_witness :
    ({ subs := [⟨0, "alice", "a@x", "Pro", "$25", "100 Mbps", "1 TB",
        SubStatus.Active, some 0, some 30⟩,
        ⟨1, "alice", "a@x", "Ultra", "$40", "300 Mbps", "2 TB",
        SubStatus.Queued, none, none⟩], nextId := 2 } : Store).subs =
      [] ++ ⟨0, "alice", "a@x", "Pro", "$25", "100 Mbps", "1 TB",
        SubStatus.Active, some 0, some 30⟩ ::
        [⟨1, "alice", "a@x", "Ultra", "$40", "300 Mbps", "2 TB",
        SubStatus.Queued, none, none⟩] ∧
    (renew { subs := [⟨0, "alice", "a@x", "Pro", "$25", "100 Mbps", "1 TB",
        SubStatus.Active, some 0, some 30⟩,
        ⟨1, "alice", "a@x", "Ultra", "$40", "300 Mbps", "2 TB",
        SubStatus.Queued, none, none⟩], nextId := 2 } 0 45).subs =
      [] ++ ⟨0, "alice", "a@x", "Pro", "$25", "100 Mbps", "1 TB",
        SubStatus.Active, some 0, some 75⟩ ::
        [⟨1, "alice", "a@x", "Ultra", "$40", "300 Mbps", "2 TB",
        SubStatus.Queued, none, none⟩] :=
  ⟨by decide,
   (renew_updates_end_date_unconditionally
     { subs := [⟨0, "alice", "a@x", "Pro", "$25", "100 Mbps", "1 TB",
         SubStatus.Active, some 0, some 30⟩,
         ⟨1, "alice", "a@x", "Ultra", "$40", "300 Mbps", "2 TB",
         SubStatus.Queued, none, none⟩], nextId := 2 }
     [] [⟨1, "alice", "a@x", "Ultra", "$40", "300 Mbps", "2 TB",
         SubStatus.Queued, none, none⟩]
     ⟨0, "alice", "a@x", "Pro", "$25", "100 Mbps", "1 TB",
         SubStatus.Active, some 0, some 30⟩ 0 45
     rfl rfl (by decide)).1⟩

/-- C5 counterexample: cancelling an already-Expired record whose end_date
is not the current instant is neither a no-op nor a rejection: the
unconditional update overwrites its end_date with the new instant (the
status does stay Expired). -/
theorem cancel_on_expired_not_noop :
    (cancel { subs := [⟨3, "alice", "a@x", "Pro", "$25", "100 Mbps", "1 TB",
        SubStatus.Expired, some 0, some 5⟩], nextId := 4 } 3 10).subs ≠
      [⟨3, "alice", "a@x", "Pro", "$25", "100 Mbps", "1 TB",
        SubStatus.Expired, some 0, some 5⟩] ∧
    (cancel { subs := [⟨3, "alice", "a@x", "Pro", "$25", "100 Mbps", "1 TB",
        SubStatus.Expired, some 0, some 5⟩], nextId := 4 } 3 10).subs =
      [⟨3, "alice", "a@x", "Pro", "$25", "100 Mbps", "1 TB",
        SubStatus.Expired, some 0, some 10⟩] :=
  ⟨by decide, by decide⟩

/-- C5 (amended): Cancel(id) rewrites the first record whose id matches,
setting its status to Expired and its end_date to the current instant,
whatever its status is — for an Active or Queued record (even with a null
start_date) this is exactly what the claim states; re-cancelling an
already-Expired record never crashes and leaves the status Expired, but it
is neither a rejection nor a no-op in general, since it overwrites the
end_date with the new instant. -/
theorem cancel_sets_expired_and_end_date (st : Store)
    (l1 l2 : List Subscription) (s : Subscription) (i now : Nat)
    (hsubs : st.subs = l1 ++ s :: l2) (hid : s.id = i)
    (hfirst : ∀ t ∈ l1, t.id ≠ i) :
    (cancel st i now).subs =
      l1 ++ { s with status := SubStatus.Expired, end_date := some now }
        :: l2 ∧
    ({ s with status := SubStatus.Expired,
              end_date := some now }).status = SubStatus.Expired ∧
    ({ s with status := SubStatus.Expired,
              end_date := some now }).start_date = s.start_date := by
  refine ⟨?_, rfl, rfl⟩
  show updateFirst st.subs i _ = _
  rw [hsubs]
  exact updateFirst_append_first l1 l2 s i _ hid hfirst

/-- C5 witness: cancelling a Queued record with a null start_date sets its
status to Expired and its end_date to the instant of cancellation. -/
theorem cancel_sets_expired_and_end_date_witness :
    ({ subs := [⟨7, "alice", "a@x", "Pro", "$25", "100 Mbps", "1 TB",
        SubStatus.Queued, none, none⟩], nextId := 8 } : Store).subs =
      [] ++ ⟨7, "alice", "a@x", "Pro", "$25", "100 Mbps", "1 TB",
        SubStatus.Queued, none, none⟩ :: [] ∧
    (cancel { subs := [⟨7, "alice", "a@x", "Pro", "$25", "100 Mbps", "1 TB",
        SubStatus.Queued, none, none⟩], nextId := 8 } 7 42).subs =
      [] ++ ⟨7, "alice", "a@x", "Pro", "$25", "100 Mbps", "1 TB",
        SubStatus.Expired, none, some 42⟩ :: [] :=
  ⟨by decide,
   (cancel_sets_expired_and_end_date
     { subs := [⟨7, "alice", "a@x", "Pro", "$25", "100 Mbps", "1 TB",
         SubStatus.Queued, none, none⟩], nextId := 8 }
     [] []
     ⟨7, "alice", "a@x", "Pro", "$25", "100 Mbps", "1 TB",
         SubStatus.Queued, none, none⟩ 7 42
     rfl rfl (by decide)).1⟩

/-- C6: DeletePlan removes the plan with the given name from a catalog of
distinctly named plans (and keeps every other plan), and sets status
Cancelled on every subscription whose denormalized plan field equals that
name — whatever its current status was — while every subscription
referencing another plan is kept unchanged. -/
theorem deletePlan_cancels_referencing_subs (ps : List Plan) (st : Store)
    (n : String) (hnodup : (ps.map Plan.name).Nodup) :
    (∀ p ∈ (deletePlan ps st n).1, p.name ≠ n) ∧
    (∀ p ∈ ps, p.name ≠ n → p ∈ (deletePlan ps st n).1) ∧
    (∀ s ∈ st.subs, s.plan = n →
      { s with status := SubStatus.Cancelled } ∈ (deletePlan ps st n).2.subs) ∧
    (∀ s ∈ st.subs, s.plan ≠ n → s ∈ (deletePlan ps st n).2.subs) ∧
    (∀ s ∈ (deletePlan ps st n).2.subs, s.plan = n →
      s.status = SubStatus.Cancelled) := by
  refine ⟨deletePlanFromCatalog_not_mem ps n hnodup,
    fun p hp hne => mem_deletePlanFromCatalog ps n p hp hne, ?_, ?_, ?_⟩
  · intro s hs hn
    show _ ∈ cancelSubsOfPlan st.subs n
    unfold cancelSubsOfPlan
    have := List.mem_map_of_mem
      (fun s => if s.plan = n then { s with status := SubStatus.Cancelled }
        else s) hs
    simpa [hn] using this
  · intro s hs hne
    show _ ∈ cancelSubsOfPlan st.subs n
    unfold cancelSubsOfPlan
    have := List.mem_map_of_mem
      (fun s => if s.plan = n then { s with status := SubStatus.Cancelled }
        else s) hs
    simpa [hne] using this
  · intro s hs hn
    obtain ⟨t, ht, hts⟩ := List.mem_map.mp hs
    by_cases htn : t.plan = n
    · rw [← hts]
      simp [htn]
    · rw [if_neg htn] at hts
      exact absurd (hts ▸ hn) htn

/-- C6 witness: deleting "Pro" from a two-plan catalog with Active, Queued
and Expired subscriptions referencing it cancels all three, keeps the
"Basic" subscription unchanged, and leaves no "Pro" plan in the catalog. -/
theorem deletePlan_cancels_referencing_subs_witness :
    (([⟨"Pro", "$25", "100 Mbps", "1 TB"⟩,
       ⟨"Basic", "$10", "20 Mbps", "100 GB"⟩] : List Plan).map
      Plan.name).Nodup ∧
    (∀ p ∈ (deletePlan
        [⟨"Pro", "$25", "100 Mbps", "1 TB"⟩,
         ⟨"Basic", "$10", "20 Mbps", "100 GB"⟩]
        { subs := [⟨0, "alice", "a@x", "Pro", "$25", "100 Mbps", "1 TB",
            SubStatus.Active, some 0, some 30⟩,
            ⟨1, "bob", "b@x", "Pro", "$25", "100 Mbps", "1 TB",
            SubStatus.Queued, none, none⟩,
            ⟨2, "carol", "c@x", "Pro", "$25", "100 Mbps", "1 TB",
            SubStatus.Expired, some 0, some 9⟩,
            ⟨3, "dan", "d@x", "Basic", "$10", "20 Mbps", "100 GB",
            SubStatus.Active, some 0, some 30⟩], nextId := 4 } "Pro").1,
      p.name ≠ "Pro") :=
  ⟨by decide,
   (deletePlan_cancels_referencing_subs
     [⟨"Pro", "$25", "100 Mbps", "1 TB"⟩,
      ⟨"Basic", "$10", "20 Mbps", "100 GB"⟩]
     { subs := [⟨0, "alice", "a@x", "Pro", "$25", "100 Mbps", "1 TB",
         SubStatus.Active, some 0, some 30⟩,
         ⟨1, "bob", "b@x", "Pro", "$25", "100 Mbps", "1 TB",
         SubStatus.Queued, none, none⟩,
         ⟨2, "carol", "c@x", "Pro", "$25", "100 Mbps", "1 TB",
         SubStatus.Expired, some 0, some 9⟩,
         ⟨3, "dan", "d@x", "Basic", "$10", "20 Mbps", "100 GB",
         SubStatus.Active, some 0, some 30⟩], nextId := 4 } "Pro"
     (by decide)).1⟩

/-- C7: when the first record matching the cancelled id is the Active one,
Cancel changes no Queued record: the queued partition of the store —
each queued record with all its fields, its null dates included, in
order — is exactly the same before and after the Cancel. -/
theorem cancel_preserves_queued_partition (st : Store)
    (l1 l2 : List Subscription) (a : Subscription) (i now : Nat)
    (hsubs : st.subs = l1 ++ a :: l2) (hid : a.id = i)
    (hfirst : ∀ t ∈ l1, t.id ≠ i) (hact : a.status = SubStatus.Active) :
    (cancel st i now).subs.filter (hasStatus SubStatus.Queued) =
      st.subs.filter (hasStatus SubStatus.Queued) := by
  have hupd : (cancel st i now).subs =
      l1 ++ { a with status := SubStatus.Expired, end_date := some now }
        :: l2 := by
    show updateFirst st.subs i _ = _
    rw [hsubs]
    exact updateFirst_append_first l1 l2 a i _ hid hfirst
  rw [hupd, hsubs, List.filter_append, List.filter_append,
    List.filter_cons, List.filter_cons]
  have h1 : hasStatus SubStatus.Queued
      { a with status := SubStatus.Expired, end_date := some now } = false := by
    simp [hasStatus]
  have h2 : hasStatus SubStatus.Queued a = false := by
    simp [hasStatus, hact]
  simp [h1, h2]

/-- C7 witness: cancelling the Active record of a store that also holds a
Queued record leaves the queued partition exactly as it was. -/
theorem cancel_preserves_queued_partition_witness :
    ({ subs := [⟨0, "alice", "a@x", "Pro", "$25", "100 Mbps", "1 TB",
        SubStatus.Active, some 0, some 30⟩,
        ⟨1, "alice", "a@x", "Ultra", "$40", "300 Mbps", "2 TB",
        SubStatus.Queued, none, none⟩], nextId := 2 } : Store).subs =
      [] ++ ⟨0, "alice", "a@x", "Pro", "$25", "100 Mbps", "1 TB",
        SubStatus.Active, some 0, some 30⟩ ::
        [⟨1, "alice", "a@x", "Ultra", "$40", "300 Mbps", "2 TB",
        SubStatus.Queued, none, none⟩] ∧
    (cancel { subs := [⟨0, "alice", "a@x", "Pro", "$25", "100 Mbps", "1 TB",
        SubStatus.Active, some 0, some 30⟩,
        ⟨1, "alice", "a@x", "Ultra", "$40", "300 Mbps", "2 TB",
        SubStatus.Queued, none, none⟩], nextId := 2 } 0 45).subs.filter
        (hasStatus SubStatus.Queued) =
      ({ subs := [⟨0, "alice", "a@x", "Pro", "$25", "100 Mbps", "1 TB",
        SubStatus.Active, some 0, some 30⟩,
        ⟨1, "alice", "a@x", "Ultra", "$40", "300 Mbps", "2 TB",
        SubStatus.Queued, none, none⟩], nextId := 2 } : Store).subs.filter
        (hasStatus SubStatus.Queued) :=
  ⟨by decide,
   cancel_preserves_queued_partition
     { subs := [⟨0, "alice", "a@x", "Pro", "$25", "100 Mbps", "1 TB",
         SubStatus.Active, some 0, some 30⟩,
         ⟨1, "alice", "a@x", "Ultra", "$40", "300 Mbps", "2 TB",
         SubStatus.Queued, none, none⟩], nextId := 2 }
     [] [⟨1, "alice", "a@x", "Ultra", "$40", "300 Mbps", "2 TB",
         SubStatus.Queued, none, none⟩]
     ⟨0, "alice", "a@x", "Pro", "$25", "100 Mbps", "1 TB",
         SubStatus.Active, some 0, some 30⟩ 0 45
     rfl rfl (by decide) rfl⟩

/-- C8: RequeueRenew on an Active record appends exactly one new record
with status Queued, null dates, and the plan, price, speed and data fields
copied from the renewed record itself; since the store is only appended
to, the existing Active record — its end_date included — and every other
record are unchanged. -/
theorem requeueRenew_inserts_queued_copy (st : Store) (i : Nat)
    (s : Subscription) (h : findById st i = some s)
    (_hact : s.status = SubStatus.Active) :
    requeueRenew st i =
      { subs := st.subs ++ [requeueSub st.nextId s],
        nextId := st.nextId + 1 } ∧
    (requeueSub st.nextId s).status = SubStatus.Queued ∧
    (requeueSub st.nextId s).plan = s.plan ∧
    (requeueSub st.nextId s).price = s.price ∧
    (requeueSub st.nextId s).speed = s.speed ∧
    (requeueSub st.nextId s).data = s.data ∧
    (requeueSub st.nextId s).start_date = none ∧
    (requeueSub st.nextId s).end_date = none := by
  refine ⟨?_, rfl, rfl, rfl, rfl, rfl, rfl, rfl⟩
  unfold requeueRenew
  rw [h]
  rfl

/-- C8 witness: requeue-renewing the Active record appends the Queued copy
of its denormalized fields and leaves the Active record in place. -/
theorem requeueRenew_inserts_queued_copy_witness :
    findById { subs := [⟨0, "alice", "a@x", "Pro", "$25", "100 Mbps", "1 TB",
        SubStatus.Active, some 0, some 30⟩], nextId := 1 } 0 =
      some ⟨0, "alice", "a@x", "Pro", "$25", "100 Mbps", "1 TB",
        SubStatus.Active, some 0, some 30⟩ ∧
    requeueRenew { subs := [⟨0, "alice", "a@x", "Pro", "$25", "100 Mbps",
        "1 TB", SubStatus.Active, some 0, some 30⟩], nextId := 1 } 0 =
      { subs := [⟨0, "alice", "a@x", "Pro", "$25", "100 Mbps", "1 TB",
          SubStatus.Active, some 0, some 30⟩,
          requeueSub 1 ⟨0, "alice", "a@x", "Pro", "$25", "100 Mbps", "1 TB",
          SubStatus.Active, some 0, some 30⟩],
        nextId := 2 } :=
  ⟨by decide,
   (requeueRenew_inserts_queued_copy
     { subs := [⟨0, "alice", "a@x", "Pro", "$25", "100 Mbps", "1 TB",
         SubStatus.Active, some 0, some 30⟩], nextId := 1 } 0
     ⟨0, "alice", "a@x", "Pro", "$25", "100 Mbps", "1 TB",
         SubStatus.Active, some 0, some 30⟩ (by decide) rfl).1⟩

/-- C9: for every store — hence for every interleaving of insertions and
every order the fetch returns the records in — the queued partition of
ListByUser is sorted in ascending record-id (creation) order, and is a
permutation of the queued records selected for the user. -/
theorem listByUser_queued_sorted_by_id (st : Store) (e : String) :
    List.Sorted (fun a b : Subscription => a.id ≤ b.id)
      (listByUser st e).2.1 ∧
    List.Perm (listByUser st e).2.1
      ((userSubs st e).filter (hasStatus SubStatus.Queued)) := by
  constructor
  · show List.Sorted _ (queuedSorted (userSubs st e))
    unfold queuedSorted
    have htrans : ∀ a b c : Subscription, decide (a.id ≤ b.id) = true →
        decide (b.id ≤ c.id) = true → decide (a.id ≤ c.id) = true := by
      intro a b c h1 h2
      simp only [decide_eq_true_eq] at h1 h2 ⊢
      omega
    have htotal : ∀ a b : Subscription,
        (decide (a.id ≤ b.id) || decide (b.id ≤ a.id)) = true := by
      intro a b
      simp only [Bool.or_eq_true, decide_eq_true_eq]
      omega
    have h := List.sorted_mergeSort htrans htotal
      ((userSubs st e).filter (hasStatus SubStatus.Queued))
    exact h.imp (fun hab => by simpa using hab)
  · show List.Perm (queuedSorted (userSubs st e)) _
    exact List.mergeSort_perm _ _

/-- C10: the duplicate-Active check of Subscribe and the dashboard listing
both select records by email address, with no constraint on the username:
any record in state Active carrying the email — whoever the account it
belongs to — makes Subscribe under any username produce a Queued record,
and the listing contains exactly the records carrying the email. -/
theorem subscribe_keyed_by_email (st : Store) (u e : String) (p : Plan)
    (now : Nat) (a : Subscription) (ha : a ∈ st.subs) (hae : a.email = e)
    (hst : a.status = SubStatus.Active) :
    (findActiveByEmail st e).isSome = true ∧
    subscribe st u e p now =
      { subs := st.subs ++ [newQueuedSub st.nextId u e p],
        nextId := st.nextId + 1 } ∧
    (∀ s ∈ userSubs st e, s.email = e) ∧
    (∀ s ∈ st.subs, s.email = e → s ∈ userSubs st e) := by
  have hsome : (findActiveByEmail st e).isSome = true := by
    unfold findActiveByEmail
    rw [List.find?_isSome]
    exact ⟨a, ha, by simp [activePred, hae, hst]⟩
  refine ⟨hsome, ?_, ?_, ?_⟩
  · unfold subscribe
    cases hfind : findActiveByEmail st e with
    | none => rw [hfind] at hsome; simp at hsome
    | some b => rfl
  · intro s hs
    have := (List.mem_filter.mp hs).2
    simpa using this
  · intro s hs hse
    exact List.mem_filter.mpr ⟨hs, by simpa using hse⟩

/-- C10 witness: with an Active record of account alice under the shared
email, a Subscribe by account bob under that email yields a Queued
record. -/
theorem subscribe_keyed_by_email_witness :
    (⟨0, "alice", "shared@x", "Pro", "$25", "100 Mbps", "1 TB",
        SubStatus.Active, some 0, some 30⟩ : Subscription) ∈
      ({ subs := [⟨0, "alice", "shared@x", "Pro", "$25", "100 Mbps", "1 TB",
           SubStatus.Active, some 0, some 30⟩],
         nextId := 1 } : Store).subs ∧
    subscribe
      { subs := [⟨0, "alice", "shared@x", "Pro", "$25", "100 Mbps", "1 TB",
          SubStatus.Active, some 0, some 30⟩], nextId := 1 }
      "bob" "shared@x" ⟨"Ultra", "$40", "300 Mbps", "2 TB"⟩ 50 =
      { subs := [⟨0, "alice", "shared@x", "Pro", "$25", "100 Mbps", "1 TB",
          SubStatus.Active, some 0, some 30⟩,
          newQueuedSub 1 "bob" "shared@x"
            ⟨"Ultra", "$40", "300 Mbps", "2 TB"⟩],
        nextId := 2 } :=
  ⟨by decide,
   (subscribe_keyed_by_email
     { subs := [⟨0, "alice", "shared@x", "Pro", "$25", "100 Mbps", "1 TB",
         SubStatus.Active, some 0, some 30⟩], nextId := 1 }
     "bob" "shared@x" ⟨"Ultra", "$40", "300 Mbps", "2 TB"⟩ 50
     ⟨0, "alice", "shared@x", "Pro", "$25", "100 Mbps", "1 TB",
         SubStatus.Active, some 0, some 30⟩
     (by decide) rfl rfl).2.1⟩

end StreamlitApp
